import Mathlib

/-!
Verification of the maintenance-scheduling optimizer (src/optimizer.py) of the
Aircraft-Fleet-Maintenance-Optimizer repository.

The embedding below transcribes generate_schedule and its helpers.  External
effects are passed explicitly:
* the CP-SAT solver is an oracle from the built model description to an
  optional variable assignment (its returned assignment is assumed to satisfy
  the posted constraints, which is what solver soundness means);
* the process RNG behind random.randint is an entropy stream rand : Nat → Nat,
  one value consumed per draw, and an empty randint range is the Python
  ValueError, modelled as none;
* pd.Timestamp.now().normalize() is a clock stream clock : Nat → Int giving the
  normalized date (as a day number) of the k-th now() call; the emitter makes
  two calls per row, in order.
Python float arithmetic in the weight computation is modelled exactly over ℚ,
with int() as truncation toward zero; the division by a zero max_hours (the
Python ZeroDivisionError) is modelled as none.
-/

/-- One fleet row as consumed by generate_schedule: the optimizer reads only
the aircraft_id and hours_until_due columns. Ids are modelled as naturals. -/
structure Aircraft where
  aircraft_id : Nat
  hours_until_due : Int
deriving Repr, DecidableEq

/-- One parts_inventory row as consumed by generate_schedule: part_id,
unit_cost and quantity_on_hand (description and lead time are unused). -/
structure PartRow where
  part_id : Nat
  unit_cost : ℚ
  quantity_on_hand : Int
deriving Repr, DecidableEq

/-- The planning parameters. In the source these are the module constants
PLANNING_HORIZON_DAYS, MAINT_DURATION_MIN, MAINT_DURATION_MAX and
CREW_AVAILABLE, declared tunable; the spec groups them as PlanningConfig. -/
structure Config where
  horizon_days : Nat
  min_duration_days : Int
  max_duration_days : Int
  crew_capacity : Nat
deriving Repr, DecidableEq

/-- A full assignment to the decision variables of the CP-SAT model:
start_day, duration, is_scheduled_on_day and the per-day reification
booleans named before_* and after_* in the source, all keyed by aircraft id
(and day for the booleans). -/
structure Assignment where
  start : Nat → Int
  dur : Nat → Int
  occ : Nat → Nat → Bool
  bef : Nat → Nat → Bool
  aft : Nat → Nat → Bool

/-- The constraints generate_schedule posts for one aircraft (source lines
53-74): variable domains for start_day and duration, and for every day d the
reified linking constraints.  Add(c).OnlyEnforceIf(b) posts b → c. -/
def AircraftConstraints (cfg : Config) (asn : Assignment) (aid : Nat) : Prop :=
  (0 ≤ asn.start aid ∧ asn.start aid ≤ (cfg.horizon_days : Int) - 1) ∧
  (cfg.min_duration_days ≤ asn.dur aid ∧ asn.dur aid ≤ cfg.max_duration_days) ∧
  ∀ d, d < cfg.horizon_days →
    (asn.bef aid d = true → asn.start aid ≤ (d : Int)) ∧
    (asn.bef aid d = false → (d : Int) < asn.start aid) ∧
    (asn.aft aid d = true → (d : Int) < asn.start aid + asn.dur aid) ∧
    (asn.aft aid d = false → asn.start aid + asn.dur aid ≤ (d : Int)) ∧
    (asn.occ aid d = true → asn.bef aid d = true ∧ asn.aft aid d = true) ∧
    (asn.occ aid d = false → asn.bef aid d = false ∨ asn.aft aid d = false)

/-- The complete constraint system of the built model: the per-aircraft
constraints plus, for every day d of the horizon, the crew capacity
constraint Σ_a is_scheduled_on_day(a,d) ≤ CREW_AVAILABLE (lines 76-79). -/
def SatisfiesModel (cfg : Config) (fleet : List Aircraft) (asn : Assignment) : Prop :=
  (∀ a ∈ fleet, AircraftConstraints cfg asn a.aircraft_id) ∧
  ∀ d, d < cfg.horizon_days →
    (fleet.filter (fun a => asn.occ a.aircraft_id d)).length ≤ cfg.crew_capacity

instance (cfg : Config) (asn : Assignment) (aid : Nat) :
    Decidable (AircraftConstraints cfg asn aid) := by
  unfold AircraftConstraints; infer_instance

instance (cfg : Config) (fleet : List Aircraft) (asn : Assignment) :
    Decidable (SatisfiesModel cfg fleet asn) := by
  unfold SatisfiesModel; infer_instance

/-- Python int() applied to a rational value: truncation toward zero. -/
def pyint (q : ℚ) : Int := if q < 0 then ⌈q⌉ else ⌊q⌋

/-- max_hours as computed on line 83: int(fleet_df.hours_until_due.max()) for
a nonempty fleet, and 1 for an empty one. -/
def maxHours : List Aircraft → Int
  | [] => 1
  | a :: rest => rest.foldl (fun m b => max m b.hours_until_due) a.hours_until_due

/-- The per-aircraft weight of lines 88-91:
max(1, int(((max_hours - urgency) / max_hours) * 100)).  Python evaluates the
division in float arithmetic and raises ZeroDivisionError when max_hours is 0;
the arithmetic is modelled exactly over ℚ and the error as none. -/
def weight (max_hours urgency : Int) : Option Int :=
  if max_hours = 0 then none
  else some (max 1 (pyint ((((max_hours : ℚ) - urgency) / max_hours) * 100)))

/-- The weight value in the non-error case, as a total function. -/
def weightFloor (max_hours urgency : Int) : Int :=
  max 1 (pyint ((((max_hours : ℚ) - urgency) / max_hours) * 100))

/-- The weights loop of lines 84-91, in fleet order; none when any single
weight computation raises. -/
def computeWeights (fleet : List Aircraft) : Option (List (Nat × Int)) :=
  fleet.mapM fun a =>
    (weight (maxHours fleet) a.hours_until_due).map fun w => (a.aircraft_id, w)

/-- The data determining the CP-SAT model handed to the solver: the planning
parameters, the fleet (fixing variables and constraints) and the objective
weights of line 94. -/
structure CpModelDesc where
  cfg : Config
  fleet : List Aircraft
  weights : List (Nat × Int)

/-- Model construction as performed by generate_schedule before solving;
none when the weight computation raises ZeroDivisionError. -/
def builtModel (cfg : Config) (fleet : List Aircraft) : Option CpModelDesc :=
  (computeWeights fleet).map fun ws => ⟨cfg, fleet, ws⟩

/-- The objective expression of line 94, sum over the aircraft list of
start_day(a) * weights[a], evaluated at an assignment. -/
def ModelObjective (m : CpModelDesc) (asn : Assignment) : Int :=
  (m.weights.map fun p => asn.start p.1 * p.2).sum

/-- The outcome of one successful allocation: the index of the chosen row in
the working copy, its part_id, the drawn quantity and the computed cost. -/
structure AllocResult where
  idx : Nat
  part_id : Nat
  qty : Int
  cost : ℚ
deriving Repr, DecidableEq

/-- The mutable state of the allocation loop of lines 108-148: the working
copy parts_copy, the rotating cursor part_idx, the running
total_parts_available, and the number of RNG draws made so far. -/
structure AllocState where
  parts : List PartRow
  part_idx : Nat
  total_available : Int
  rng_calls : Nat
deriving Repr, DecidableEq

/-- random.randint(lo, hi) (line 136): a value of [lo, hi] taken from the
entropy stream rand at call index k; Python raises ValueError on an empty
range, modelled as none. -/
def randint (rand : Nat → Nat) (k : Nat) (lo hi : Int) : Option Int :=
  if hi < lo then none else some (lo + (rand k : Int) % (hi - lo + 1))

/-- The cursor wrap at the top of each probe iteration (lines 129-130):
part_idx is reset to 0 when it is at or past the end of the working copy. -/
def wrapIdx (st : AllocState) : Nat :=
  if st.parts.length ≤ st.part_idx then 0 else st.part_idx

/-- The probe loop of lines 127-147 for one aircraft.  gas is the number of
failed probes still allowed, i.e. len(parts_copy) - attempts; the loop stops
with the unresourced defaults when it reaches 0.  Each iteration wraps the
cursor, reads the row there, and either allocates from it (when its stock is
positive) or advances the cursor and spends one attempt.  The out-of-range
lookup branch is unreachable under the caller's nonempty-parts guard and
returns the defaults. -/
def probeLoop (rand : Nat → Nat) : Nat → AllocState → Option (Option AllocResult × AllocState)
  | 0, st => some (none, st)
  | gas + 1, st =>
    match st.parts[wrapIdx st]? with
    | none => some (none, st)
    | some prow =>
      if 0 < prow.quantity_on_hand then
        match randint rand st.rng_calls 1 (min 3 prow.quantity_on_hand) with
        | none => none
        | some q =>
          some (some ⟨wrapIdx st, prow.part_id, q, prow.unit_cost * (q : ℚ)⟩,
            { parts := st.parts.set (wrapIdx st)
                { prow with quantity_on_hand := prow.quantity_on_hand - q },
              part_idx := (wrapIdx st + 1) % st.parts.length,
              total_available := st.total_available - q,
              rng_calls := st.rng_calls + 1 })
      else
        probeLoop rand gas { st with part_idx := (wrapIdx st + 1) % st.parts.length }

/-- The per-aircraft allocation of lines 118-148: the probe loop runs only
when total_parts_available > 0 and the working copy is nonempty; otherwise
the unresourced defaults are kept. -/
def allocForAircraft (rand : Nat → Nat) (st : AllocState) :
    Option (Option AllocResult × AllocState) :=
  if 0 < st.total_available ∧ st.parts ≠ [] then probeLoop rand st.parts.length st
  else some (none, st)

/-- One row of the result DataFrame (lines 150-158).  The date fields hold
day numbers; each is anchored at its own now() call. -/
structure TaskRow where
  aircraft_id : Nat
  schedule_start : Int
  schedule_end : Int
  part_id : Option Nat
  part_quantity : Int
  cost : ℚ
  status : String
deriving Repr, DecidableEq

/-- Builds the schedule row appended for the k-th aircraft (lines 150-158);
the row's two date fields come from the 2k-th and (2k+1)-th now() calls. -/
def buildRow (clock : Nat → Int) (k : Nat) (a : Aircraft) (asn : Assignment)
    (res : Option AllocResult) : TaskRow :=
  { aircraft_id := a.aircraft_id
    schedule_start := clock (2 * k) + asn.start a.aircraft_id
    schedule_end := clock (2 * k + 1) + asn.start a.aircraft_id + asn.dur a.aircraft_id
    part_id := res.map (fun r => r.part_id)
    part_quantity := match res with | none => 0 | some r => r.qty
    cost := match res with | none => 0 | some r => r.cost
    status := "SCHEDULED" }

/-- The main emission loop of lines 114-158: for the k-th aircraft, allocate
parts, then append the row; threads the allocation state through the fleet
and fails only when a random draw has an empty range. -/
def emitRows (rand : Nat → Nat) (clock : Nat → Int) (asn : Assignment) :
    Nat → AllocState → List Aircraft → Option (List TaskRow × AllocState)
  | _, st, [] => some ([], st)
  | k, st, a :: rest =>
    match allocForAircraft rand st with
    | none => none
    | some (res, st1) =>
      match emitRows rand clock asn (k + 1) st1 rest with
      | none => none
      | some (rows, st2) => some (buildRow clock k a asn res :: rows, st2)

/-- Descending insertion by quantity_on_hand, auxiliary to sortParts. -/
def insertDesc (p : PartRow) : List PartRow → List PartRow
  | [] => [p]
  | q :: rest =>
    if q.quantity_on_hand ≤ p.quantity_on_hand then p :: q :: rest
    else q :: insertDesc p rest

/-- parts_copy of line 108: a copy of the inventory sorted descending by
quantity_on_hand.  pandas sort_values leaves the order of ties unspecified
(quicksort); a stable insertion sort realizes one admissible order, and no
property proved below depends on the order of the working copy. -/
def sortParts : List PartRow → List PartRow
  | [] => []
  | p :: rest => insertDesc p (sortParts rest)

/-- total_parts_available of line 112 (the sum over an empty copy is 0). -/
def totalAvailable (parts : List PartRow) : Int :=
  (parts.map fun p => p.quantity_on_hand).sum

/-- The allocation state entering the loop: sorted working copy, cursor 0,
initial total, no draws made yet. -/
def initState (parts : List PartRow) : AllocState :=
  ⟨sortParts parts, 0, totalAvailable (sortParts parts), 0⟩

/-- Failure modes of one run of generate_schedule.  The source raises
RuntimeError("No feasible solution found") when the solver status is neither
OPTIMAL nor FEASIBLE — the spec names it InfeasibleScheduleError; a nonempty
fleet whose maximal hours_until_due is 0 raises ZeroDivisionError on line 90;
an empty randint range would raise ValueError on line 136.  The spec also
names a ConfigError for invalid planning parameters; the source contains no
such check, and the constructor exists only so that absence can be stated. -/
inductive RunError where
  | infeasibleScheduleError
  | zeroDivisionError
  | valueError
  | configError
deriving Repr, DecidableEq

/-- generate_schedule (lines 29-161): build the model and objective weights,
solve through the solver oracle, then allocate parts and emit the schedule
rows.  rand and clock are the ambient RNG and wall clock. -/
def generate_schedule (cfg : Config) (solver : CpModelDesc → Option Assignment)
    (rand : Nat → Nat) (clock : Nat → Int)
    (fleet : List Aircraft) (parts : List PartRow) : Except RunError (List TaskRow) :=
  match builtModel cfg fleet with
  | none => .error .zeroDivisionError
  | some m =>
    match solver m with
    | none => .error .infeasibleScheduleError
    | some asn =>
      match emitRows rand clock asn 0 (initState parts) fleet with
      | none => .error .valueError
      | some (rows, _) => .ok rows

/-- The assignment generate_schedule extracts the schedule from: the solver's
answer on the built model. -/
def solvedAssignment (cfg : Config) (solver : CpModelDesc → Option Assignment)
    (fleet : List Aircraft) : Option Assignment :=
  (builtModel cfg fleet).bind solver

/-- A solver oracle is sound when every assignment it returns satisfies the
constraint system of the model it was given. -/
def SolverSound (solver : CpModelDesc → Option Assignment) : Prop :=
  ∀ m asn, solver m = some asn → SatisfiesModel m.cfg m.fleet asn

/-- The number of aircraft whose assigned window [start_day, start_day +
duration) contains day d. -/
def windowCount (fleet : List Aircraft) (asn : Assignment) (d : Nat) : Nat :=
  (fleet.filter fun a =>
    decide (asn.start a.aircraft_id ≤ (d : Int) ∧
      (d : Int) < asn.start a.aircraft_id + asn.dur a.aircraft_id)).length

/-- A solver oracle for concrete runs: answers a fixed assignment whenever it
satisfies the model it is asked about, and reports infeasibility otherwise. -/
def oracleOf (asn : Assignment) : CpModelDesc → Option Assignment :=
  fun m => if SatisfiesModel m.cfg m.fleet asn then some asn else none

/-- Modelled from the spec: the weight formula of section 4.2,
max(1, round(((max_hours_until_due - hours_until_due) / max_hours_until_due)
* 100)), with rounding rather than the truncation the source applies.  The
missing piece is the rounding mode the spec asserts; stated only to be
compared with the weight computed by the source. -/
def weight_spec (max_hours urgency : Int) : Int :=
  max 1 (round ((((max_hours : ℚ) - urgency) / max_hours) * 100))

/-- Modelled from the spec: max_hours_until_due of section 4.2, the fleet
maximum taken as 1 when the fleet is empty or all hours_until_due are zero.
The missing piece is the all-zero guard the spec asserts; stated only to be
compared with max_hours as the source computes it. -/
def maxHours_spec (fleet : List Aircraft) : Int :=
  if fleet = [] ∨ ∀ a ∈ fleet, a.hours_until_due = 0 then 1 else maxHours fleet

/-- How one row of the working inventory copy may change across allocation:
identity and price never change, stock never grows, and stock either stayed
unchanged or is provably nonnegative (it was decremented to avail - qty with
qty ≤ avail). -/
def PartEvolves (p q : PartRow) : Prop :=
  q.part_id = p.part_id ∧ q.unit_cost = p.unit_cost ∧
  q.quantity_on_hand ≤ p.quantity_on_hand ∧
  (q.quantity_on_hand = p.quantity_on_hand ∨ 0 ≤ q.quantity_on_hand)

/-- A degenerate entropy stream for concrete runs. -/
def rand0 : Nat → Nat := fun _ => 0

/-- A wall clock frozen at day 0 for concrete runs. -/
def clock0 : Nat → Int := fun _ => 0

/-- A wall clock that crosses midnight right after its first reading: the
first now() call is on day 0, every later one on day 1.  Nondecreasing, as a
real clock is. -/
def clockMid : Nat → Int := fun k => if k = 0 then 0 else 1

/-- A small planning configuration for concrete runs: 3-day horizon,
durations within [1, 2], crew capacity 2. -/
def cfgW : Config := ⟨3, 1, 2, 2⟩

/-- A one-aircraft fleet for concrete runs. -/
def fleetW : List Aircraft := [⟨1, 10⟩]

/-- A one-part inventory for concrete runs: part 7, unit cost 5, 4 in stock. -/
def partsW : List PartRow := [⟨7, 5, 4⟩]

/-- A feasible assignment for cfgW and fleetW: start day 0, duration 1. -/
def asnW : Assignment :=
  { start := fun _ => 0, dur := fun _ => 1,
    occ := fun _ d => decide (d = 0),
    bef := fun _ _ => true,
    aft := fun _ d => decide (d < 1) }

/-- A configuration the spec calls infeasible by construction: horizon 2 with
both duration bounds at 3 (max_duration_days exceeds horizon_days). -/
def cfgBad : Config := ⟨2, 3, 3, 2⟩

/-- A feasible assignment for cfgBad and fleetW: start day 0, duration 3, so
the aircraft occupies both modeled days. -/
def asnBad : Assignment :=
  { start := fun _ => 0, dur := fun _ => 3,
    occ := fun _ _ => true,
    bef := fun _ _ => true,
    aft := fun _ d => decide (d < 3) }

/-- A two-aircraft fleet with distinct urgencies for concrete runs. -/
def fleet9 : List Aircraft := [⟨1, 5⟩, ⟨2, 9⟩]

/-- A one-aircraft fleet whose only hours_until_due is zero, making the
weight computation of line 90 divide by zero. -/
def fleetZ : List Aircraft := [⟨1, 0⟩]

/-- A two-aircraft fleet on which truncation and rounding of the weight
ratio differ: max_hours = 3 and (2/3)*100 truncates to 66 but rounds to 67. -/
def fleetC3 : List Aircraft := [⟨1, 1⟩, ⟨2, 3⟩]

/-- The row generate_schedule emits for cfgW, fleetW, partsW, rand0, clock0:
one unit of part 7 at cost 5, window day 0 to day 1. -/
def rowW : TaskRow := ⟨1, 0, 1, some 7, 1, 5, "SCHEDULED"⟩

/-- The row generate_schedule emits for cfgW, fleetW, empty inventory and
clock0: unresourced, window day 0 to day 1. -/
def rowW0 : TaskRow := ⟨1, 0, 1, none, 0, 0, "SCHEDULED"⟩

/-- The row generate_schedule emits for cfgW, fleetW, empty inventory and
the midnight-crossing clock clockMid: its schedule_start is anchored on day
0 but its schedule_end on day 1, giving a 2-day span for a 1-day duration. -/
def rowMid : TaskRow := ⟨1, 0, 2, none, 0, 0, "SCHEDULED"⟩

/-- The row generate_schedule emits for cfgBad, fleetW, empty inventory and
clock0: window day 0 to day 3 under the 2-day horizon. -/
def rowBad : TaskRow := ⟨1, 0, 3, none, 0, 0, "SCHEDULED"⟩

/-- In every assignment satisfying the built model, the reification of lines
59-74 forces is_scheduled_on_day(a,d) to agree exactly with the window
predicate start_day(a) ≤ d < start_day(a) + duration(a). -/
lemma satisfies_occ_iff {cfg : Config} {fleet : List Aircraft} {asn : Assignment}
    {a : Aircraft} {d : Nat} (h : SatisfiesModel cfg fleet asn) (ha : a ∈ fleet)
    (hd : d < cfg.horizon_days) :
    asn.occ a.aircraft_id d = true ↔
      (asn.start a.aircraft_id ≤ (d : Int) ∧
        (d : Int) < asn.start a.aircraft_id + asn.dur a.aircraft_id) := by
  obtain ⟨hac, _⟩ := h
  obtain ⟨_, _, hlink⟩ := hac a ha
  obtain ⟨hb1, hb0, ha1, ha0, ho1, ho0⟩ := hlink d hd
  constructor
  · intro hocc
    obtain ⟨hb, haf⟩ := ho1 hocc
    exact ⟨hb1 hb, ha1 haf⟩
  · intro hwin
    cases hocc : asn.occ a.aircraft_id d
    · rcases ho0 hocc with hb | haf
      · have := hb0 hb; omega
      · have := ha0 haf; omega
    · rfl

/-- In every assignment satisfying the built model, on each day of the
horizon at most crew_capacity aircraft have that day inside their window. -/
lemma satisfies_windowCount {cfg : Config} {fleet : List Aircraft}
    {asn : Assignment} {d : Nat} (h : SatisfiesModel cfg fleet asn)
    (hd : d < cfg.horizon_days) :
    windowCount fleet asn d ≤ cfg.crew_capacity := by
  have hcap := h.2 d hd
  unfold windowCount
  have hfe : (fleet.filter fun a =>
      decide (asn.start a.aircraft_id ≤ (d : Int) ∧
        (d : Int) < asn.start a.aircraft_id + asn.dur a.aircraft_id)) =
      fleet.filter fun a => asn.occ a.aircraft_id d := by
    apply List.filter_congr
    intro a ha
    have hiff := satisfies_occ_iff h ha hd
    by_cases hP : (asn.start a.aircraft_id ≤ (d : Int) ∧
        (d : Int) < asn.start a.aircraft_id + asn.dur a.aircraft_id)
    · rw [decide_eq_true hP, hiff.mpr hP]
    · rw [decide_eq_false hP]
      cases hocc : asn.occ a.aircraft_id d
      · rfl
      · exact absurd (hiff.mp hocc) hP
  rw [hfe]
  exact hcap

/-- The fixed-assignment oracle is a sound solver. -/
lemma oracleOf_sound (asn : Assignment) : SolverSound (oracleOf asn) := by
  intro m a h
  unfold oracleOf at h
  split at h
  · cases h
    assumption
  · cases h

/-- An assignment obtained from a sound solver on the built model satisfies
the model's constraint system. -/
lemma solvedAssignment_satisfies {cfg : Config} {fleet : List Aircraft}
    {solver : CpModelDesc → Option Assignment} {asn : Assignment}
    (hsound : SolverSound solver)
    (h : solvedAssignment cfg solver fleet = some asn) :
    SatisfiesModel cfg fleet asn := by
  unfold solvedAssignment builtModel at h
  cases hw : computeWeights fleet with
  | none => rw [hw] at h; cases h
  | some ws =>
    rw [hw] at h
    exact hsound ⟨cfg, fleet, ws⟩ asn h

/-- C1: in every schedule returned by generate_schedule (solved by a sound
solver), for each day d of [0, horizon_days) the number of aircraft whose
assigned window [start_day, start_day + duration) contains d is at most
crew_capacity. -/
theorem C1_capacity (cfg : Config) (solver : CpModelDesc → Option Assignment)
    (rand : Nat → Nat) (clock : Nat → Int) (fleet : List Aircraft)
    (parts : List PartRow) (rows : List TaskRow) (asn : Assignment)
    (hsound : SolverSound solver)
    (_hrun : generate_schedule cfg solver rand clock fleet parts = .ok rows)
    (hasn : solvedAssignment cfg solver fleet = some asn) :
    ∀ d, d < cfg.horizon_days → windowCount fleet asn d ≤ cfg.crew_capacity := by
  intro d hd
  exact satisfies_windowCount (solvedAssignment_satisfies hsound hasn) hd

theorem C1_capacity_witness : windowCount fleetW asnW 0 ≤ cfgW.crew_capacity :=
  C1_capacity cfgW (oracleOf asnW) rand0 clock0 fleetW partsW
    [⟨1, 0, 1, some 7, 1, 5, "SCHEDULED"⟩] asnW (oracleOf_sound asnW)
    (by with_unfolding_all rfl) (by with_unfolding_all rfl) 0 (by decide)

/-- C2: the built model constrains is_scheduled_on_day(a,d) to hold if and
only if start_day(a) ≤ d and start_day(a) + duration(a) > d: in every
feasible solution of the model the boolean equals the window predicate. -/
theorem C2_linking (cfg : Config) (fleet : List Aircraft) (asn : Assignment)
    (h : SatisfiesModel cfg fleet asn) :
    ∀ a ∈ fleet, ∀ d, d < cfg.horizon_days →
      (asn.occ a.aircraft_id d = true ↔
        (asn.start a.aircraft_id ≤ (d : Int) ∧
          (d : Int) < asn.start a.aircraft_id + asn.dur a.aircraft_id)) := by
  intro a ha d hd
  exact satisfies_occ_iff h ha hd

theorem C2_linking_witness :
    asnW.occ 1 0 = true ↔
      (asnW.start 1 ≤ (0 : Int) ∧ (0 : Int) < asnW.start 1 + asnW.dur 1) :=
  C2_linking cfgW fleetW asnW (by decide) ⟨1, 10⟩ (by decide) 0 (by decide)

/-- The seed of the maximum fold never exceeds its result. -/
lemma le_foldlMaxHours (l : List Aircraft) (x : Int) :
    x ≤ l.foldl (fun m b => max m b.hours_until_due) x := by
  induction l generalizing x with
  | nil => exact le_refl x
  | cons a rest ih =>
    calc x ≤ max x a.hours_until_due := le_max_left _ _
    _ ≤ rest.foldl (fun m b => max m b.hours_until_due) (max x a.hours_until_due) := ih _

/-- Every member's hours_until_due is bounded by the maximum fold. -/
lemma mem_le_foldlMaxHours {a : Aircraft} {l : List Aircraft} (x : Int)
    (ha : a ∈ l) :
    a.hours_until_due ≤ l.foldl (fun m b => max m b.hours_until_due) x := by
  induction l generalizing x with
  | nil => cases ha
  | cons b rest ih =>
    rcases List.mem_cons.mp ha with rfl | hmem
    · calc a.hours_until_due ≤ max x a.hours_until_due := le_max_right _ _
      _ ≤ rest.foldl (fun m b => max m b.hours_until_due) (max x a.hours_until_due) :=
        le_foldlMaxHours _ _
    · exact ih (max x b.hours_until_due) hmem

/-- Every aircraft's hours_until_due is at most the max_hours of line 83. -/
lemma mem_le_maxHours {a : Aircraft} {fleet : List Aircraft} (ha : a ∈ fleet) :
    a.hours_until_due ≤ maxHours fleet := by
  cases fleet with
  | nil => cases ha
  | cons b rest =>
    rcases List.mem_cons.mp ha with rfl | hmem
    · exact le_foldlMaxHours rest a.hours_until_due
    · exact mem_le_foldlMaxHours _ hmem

/-- Truncation toward zero is monotone on nonnegative rationals. -/
lemma pyint_mono_of_nonneg {q1 q2 : ℚ} (h0 : 0 ≤ q1) (h12 : q1 ≤ q2) :
    pyint q1 ≤ pyint q2 := by
  unfold pyint
  rw [if_neg (not_lt.mpr h0), if_neg (not_lt.mpr (le_trans h0 h12))]
  exact Int.floor_le_floor h12

/-- The weight of lines 88-91 is antitone in hours_until_due on the range the
optimizer evaluates it: between 0 and max_hours. -/
lemma weightFloor_anti {maxH u1 u2 : Int} (h0 : 0 ≤ u1) (h12 : u1 < u2)
    (h2 : u2 ≤ maxH) :
    weightFloor maxH u2 ≤ weightFloor maxH u1 := by
  have hm : (0 : Int) < maxH := by omega
  have hmq : (0 : ℚ) < (maxH : Int) := by exact_mod_cast hm
  have hnum : ((maxH : ℚ) - u2) ≤ ((maxH : ℚ) - u1) := by
    have : (u1 : ℚ) ≤ u2 := by exact_mod_cast le_of_lt h12
    linarith
  have hnum0 : (0 : ℚ) ≤ ((maxH : ℚ) - u2) := by
    have : (u2 : ℚ) ≤ maxH := by exact_mod_cast h2
    linarith
  have hq0 : (0 : ℚ) ≤ ((maxH : ℚ) - u2) / maxH * 100 := by positivity
  have hq12 : ((maxH : ℚ) - u2) / maxH * 100 ≤ ((maxH : ℚ) - u1) / maxH * 100 := by
    gcongr
  unfold weightFloor
  exact max_le_max (le_refl 1) (pyint_mono_of_nonneg hq0 hq12)

/-- C9: for any two aircraft of a fleet with hours_until_due(a1) <
hours_until_due(a2) (urgencies are nonnegative by the data-model invariant),
the computed weights exist and satisfy weight(a1) ≥ weight(a2). -/
theorem C9_weight_monotone (fleet : List Aircraft) (a1 a2 : Aircraft)
    (_h1 : a1 ∈ fleet) (h2 : a2 ∈ fleet) (hnn : 0 ≤ a1.hours_until_due)
    (hlt : a1.hours_until_due < a2.hours_until_due) :
    weight (maxHours fleet) a1.hours_until_due =
      some (weightFloor (maxHours fleet) a1.hours_until_due) ∧
    weight (maxHours fleet) a2.hours_until_due =
      some (weightFloor (maxHours fleet) a2.hours_until_due) ∧
    weightFloor (maxHours fleet) a2.hours_until_due ≤
      weightFloor (maxHours fleet) a1.hours_until_due := by
  have hmax : a2.hours_until_due ≤ maxHours fleet := mem_le_maxHours h2
  have hm : maxHours fleet ≠ 0 := by omega
  refine ⟨?_, ?_, weightFloor_anti hnn hlt hmax⟩
  · unfold weight weightFloor
    rw [if_neg hm]
  · unfold weight weightFloor
    rw [if_neg hm]

theorem C9_weight_monotone_witness :
    weight (maxHours fleet9) (5 : Int) = some (weightFloor (maxHours fleet9) 5) ∧
    weight (maxHours fleet9) (9 : Int) = some (weightFloor (maxHours fleet9) 9) ∧
    weightFloor (maxHours fleet9) 9 ≤ weightFloor (maxHours fleet9) 5 :=
  C9_weight_monotone fleet9 ⟨1, 5⟩ ⟨2, 9⟩ (by decide) (by decide) (by decide)
    (by decide)

/-- A weight evaluates to none exactly on a zero max_hours. -/
lemma weight_eq_none_iff {m u : Int} : weight m u = none ↔ m = 0 := by
  unfold weight
  split
  · simp [*]
  · simp [*]

/-- A weight on a nonzero max_hours is the total formula weightFloor. -/
lemma weight_of_ne {m : Int} (u : Int) (hm : m ≠ 0) :
    weight m u = some (weightFloor m u) := by
  unfold weight weightFloor
  rw [if_neg hm]

/-- The weights loop on any list, for a nonzero max_hours. -/
lemma mapM_weights_of_ne (M : Int) (hM : M ≠ 0) (l : List Aircraft) :
    (l.mapM fun a => (weight M a.hours_until_due).map fun w => (a.aircraft_id, w)) =
      some (l.map fun a => (a.aircraft_id, weightFloor M a.hours_until_due)) := by
  induction l with
  | nil => rfl
  | cons a rest ih =>
    rw [List.mapM_cons, ih, weight_of_ne a.hours_until_due hM]
    rfl

/-- computeWeights on a fleet whose max_hours is nonzero. -/
lemma computeWeights_of_ne {fleet : List Aircraft} (h : maxHours fleet ≠ 0) :
    computeWeights fleet =
      some (fleet.map fun a =>
        (a.aircraft_id, weightFloor (maxHours fleet) a.hours_until_due)) :=
  mapM_weights_of_ne _ h fleet

/-- The weights loop raises ZeroDivisionError exactly on a nonempty fleet
whose maximal hours_until_due is zero. -/
lemma computeWeights_eq_none_iff (fleet : List Aircraft) :
    computeWeights fleet = none ↔ fleet ≠ [] ∧ maxHours fleet = 0 := by
  cases fleet with
  | nil =>
    constructor
    · intro h
      rw [show computeWeights ([] : List Aircraft) = some [] from rfl] at h
      cases h
    · rintro ⟨hne, _⟩
      exact absurd rfl hne
  | cons a rest =>
    by_cases hm : maxHours (a :: rest) = 0
    · constructor
      · intro _
        exact ⟨List.cons_ne_nil a rest, hm⟩
      · intro _
        unfold computeWeights
        rw [List.mapM_cons, weight_eq_none_iff.mpr hm]
        rfl
    · rw [computeWeights_of_ne hm]
      simp [hm]

/-- C3 counterexample: the weight computation is not the one the claim
states.  On the one-aircraft fleet with hours_until_due = 0 the source
computes max_hours = 0 and the weight computation divides by zero (none)
instead of using 1 as the claim asserts; and on the fleet with
hours_until_due values 1 and 3 the source truncates (2/3)*100 to 66 where the
claimed round(...) formula yields 67, so the computed weights differ from the
claimed ones. -/
theorem C3_weights_counterexample :
    computeWeights fleetZ = none ∧
    maxHours_spec fleetZ = 1 ∧
    computeWeights fleetC3 = some [(1, 66), (2, 1)] ∧
    computeWeights fleetC3 ≠
      some (fleetC3.map fun a =>
        (a.aircraft_id, weight_spec (maxHours_spec fleetC3) a.hours_until_due)) := by
  refine ⟨by with_unfolding_all rfl, by with_unfolding_all rfl,
    by with_unfolding_all rfl, ?_⟩
  have hcode : computeWeights fleetC3 = some [(1, 66), (2, 1)] := by
    with_unfolding_all rfl
  have hspec : (fleetC3.map fun a =>
      (a.aircraft_id, weight_spec (maxHours_spec fleetC3) a.hours_until_due)) =
      [(1, 67), (2, 1)] := by
    with_unfolding_all rfl
  rw [hcode, hspec]
  decide

/-- C3 amended: generate_schedule builds the objective minimizing
Σ_a start_day(a) × weight(a) with weight(a) = max(1, trunc(((max_hours −
hours_until_due(a)) / max_hours) × 100)) — truncation toward zero, not
rounding — where max_hours is taken as 1 only when the fleet is empty; when
the fleet is nonempty and its maximal hours_until_due is zero the weight
computation divides by zero and the run fails before any model is built. -/
theorem C3_weights_amended (cfg : Config) (fleet : List Aircraft) :
    (builtModel cfg fleet = none ↔ fleet ≠ [] ∧ maxHours fleet = 0) ∧
    (∀ solver rand clock parts, builtModel cfg fleet = none →
      generate_schedule cfg solver rand clock fleet parts =
        .error .zeroDivisionError) ∧
    ∀ m, builtModel cfg fleet = some m →
      m.weights = (fleet.map fun a =>
        (a.aircraft_id, weightFloor (maxHours fleet) a.hours_until_due)) ∧
      ∀ asn, ModelObjective m asn =
        (fleet.map fun a =>
          asn.start a.aircraft_id * weightFloor (maxHours fleet) a.hours_until_due).sum := by
  refine ⟨?_, ?_, ?_⟩
  · unfold builtModel
    cases hw : computeWeights fleet with
    | none =>
      simpa using (computeWeights_eq_none_iff fleet).mp hw
    | some ws =>
      constructor
      · intro h
        simp at h
      · intro h
        have hnone := (computeWeights_eq_none_iff fleet).mpr h
        rw [hw] at hnone
        cases hnone
  · intro solver rand clock parts h
    unfold generate_schedule
    rw [h]
  · intro m hm
    have hw : computeWeights fleet =
        some (fleet.map fun a =>
          (a.aircraft_id, weightFloor (maxHours fleet) a.hours_until_due)) := by
      by_cases hz : maxHours fleet = 0
      · cases fleet with
        | nil => cases hz
        | cons a rest =>
          exfalso
          have : builtModel cfg (a :: rest) = none := by
            unfold builtModel
            rw [(computeWeights_eq_none_iff (a :: rest)).mpr
              ⟨List.cons_ne_nil a rest, hz⟩]
            rfl
          rw [this] at hm
          cases hm
      · exact computeWeights_of_ne hz
    unfold builtModel at hm
    rw [hw] at hm
    have hmv : m = ⟨cfg, fleet, fleet.map fun a =>
        (a.aircraft_id, weightFloor (maxHours fleet) a.hours_until_due)⟩ := by
      cases hm
      rfl
    subst hmv
    refine ⟨rfl, ?_⟩
    intro asn
    unfold ModelObjective
    rw [List.map_map]
    rfl

theorem C3_weights_amended_witness :
    (⟨cfgW, fleetW, [(1, 1)]⟩ : CpModelDesc).weights =
      (fleetW.map fun a =>
        (a.aircraft_id, weightFloor (maxHours fleetW) a.hours_until_due)) :=
  ((C3_weights_amended cfgW fleetW).2.2 ⟨cfgW, fleetW, [(1, 1)]⟩
    (by with_unfolding_all rfl)).1

/-- A randint call on a nonempty range cannot raise. -/
lemma randint_ne_none {rand : Nat → Nat} {k : Nat} {lo hi : Int} (h : lo ≤ hi) :
    randint rand k lo hi ≠ none := by
  unfold randint
  rw [if_neg (not_lt.mpr h)]
  intro hc
  cases hc

/-- A successful randint draw lies within the requested range. -/
lemma randint_bounds {rand : Nat → Nat} {k : Nat} {lo hi q : Int}
    (h : randint rand k lo hi = some q) : lo ≤ q ∧ q ≤ hi := by
  unfold randint at h
  by_cases hlt : hi < lo
  · rw [if_pos hlt] at h
    cases h
  · rw [if_neg hlt] at h
    have hq : lo + (rand k : Int) % (hi - lo + 1) = q := by
      injection h
    have hpos : (0 : Int) < hi - lo + 1 := by omega
    have h1 : 0 ≤ (rand k : Int) % (hi - lo + 1) :=
      Int.emod_nonneg _ (by omega)
    have h2 : (rand k : Int) % (hi - lo + 1) < hi - lo + 1 :=
      Int.emod_lt_of_pos _ hpos
    omega

/-- The probe loop always terminates with a result: every random draw it
makes is on a part whose stock is positive, so the range [1, min(3, avail)]
is nonempty and the draw cannot raise ValueError. -/
lemma probeLoop_ne_none (rand : Nat → Nat) :
    ∀ (gas : Nat) (st : AllocState), probeLoop rand gas st ≠ none := by
  intro gas
  induction gas with
  | zero =>
    intro st h
    cases h
  | succ g ih =>
    intro st h
    unfold probeLoop at h
    split at h
    · cases h
    · rename_i prow hlook
      split at h
      · rename_i hpos
        split at h
        · rename_i hdraw
          exact absurd hdraw (randint_ne_none (by omega))
        · cases h
      · exact ih _ h

/-- When the probe loop ends without allocating, the working copy, the
running total and the RNG call count are unchanged (only the cursor moved). -/
lemma probeLoop_none_spec (rand : Nat → Nat) :
    ∀ (gas : Nat) (st st1 : AllocState),
      probeLoop rand gas st = some (none, st1) →
      st1.parts = st.parts ∧ st1.total_available = st.total_available ∧
        st1.rng_calls = st.rng_calls := by
  intro gas
  induction gas with
  | zero =>
    intro st st1 h
    injection h with h
    injection h with h1 h2
    rw [← h2]
    exact ⟨rfl, rfl, rfl⟩
  | succ g ih =>
    intro st st1 h
    unfold probeLoop at h
    split at h
    · injection h with h
      injection h with h1 h2
      rw [← h2]
      exact ⟨rfl, rfl, rfl⟩
    · rename_i prow hlook
      split at h
      · split at h
        · cases h
        · injection h with h
          injection h with h1 h2
          cases h1
      · obtain ⟨hp, ht, hr⟩ := ih _ _ h
        exact ⟨hp, ht, hr⟩

/-- When the probe loop allocates, the allocation came from a row of the
working copy with positive stock, the drawn quantity lies in
[1, min(3, avail)], the cost is unit_cost times the quantity, and the next
state decrements exactly that row and the running total by the quantity. -/
lemma probeLoop_some_spec (rand : Nat → Nat) :
    ∀ (gas : Nat) (st : AllocState) (r : AllocResult) (st1 : AllocState),
      probeLoop rand gas st = some (some r, st1) →
      ∃ prow, st.parts[r.idx]? = some prow ∧ 0 < prow.quantity_on_hand ∧
        1 ≤ r.qty ∧ r.qty ≤ min 3 prow.quantity_on_hand ∧
        r.part_id = prow.part_id ∧ r.cost = prow.unit_cost * (r.qty : ℚ) ∧
        st1.parts = st.parts.set r.idx
          { prow with quantity_on_hand := prow.quantity_on_hand - r.qty } ∧
        st1.total_available = st.total_available - r.qty ∧
        st1.rng_calls = st.rng_calls + 1 := by
  intro gas
  induction gas with
  | zero =>
    intro st r st1 h
    injection h with h
    injection h with h1 h2
    cases h1
  | succ g ih =>
    intro st r st1 h
    unfold probeLoop at h
    split at h
    · injection h with h
      injection h with h1 h2
      cases h1
    · rename_i prow hlook
      split at h
      · rename_i hpos
        split at h
        · cases h
        · rename_i q hdraw
          injection h with h
          injection h with h1 h2
          obtain ⟨hq1, hq2⟩ := randint_bounds hdraw
          cases h1
          refine ⟨prow, hlook, hpos, hq1, hq2, rfl, rfl, ?_, ?_, ?_⟩
          · rw [← h2]
          · rw [← h2]
          · rw [← h2]
      · obtain ⟨prow2, e1, e2, e3, e4, e5, e6, e7, e8, e9⟩ := ih _ _ _ h
        exact ⟨prow2, e1, e2, e3, e4, e5, e6, e7, e8, e9⟩

/-- The per-aircraft allocation step always produces a result. -/
lemma allocForAircraft_ne_none (rand : Nat → Nat) (st : AllocState) :
    allocForAircraft rand st ≠ none := by
  unfold allocForAircraft
  split
  · exact probeLoop_ne_none rand _ st
  · intro h
    cases h

/-- An unresourced allocation step leaves the working copy, the running
total and the RNG call count unchanged. -/
lemma allocForAircraft_none_spec {rand : Nat → Nat} {st st1 : AllocState}
    (h : allocForAircraft rand st = some (none, st1)) :
    st1.parts = st.parts ∧ st1.total_available = st.total_available ∧
      st1.rng_calls = st.rng_calls := by
  unfold allocForAircraft at h
  split at h
  · exact probeLoop_none_spec rand _ _ _ h
  · injection h with h
    injection h with h1 h2
    rw [← h2]
    exact ⟨rfl, rfl, rfl⟩

/-- A resourced allocation step took its part from a positive-stock row of
the working copy, drew between 1 and min(3, avail) units, charged
unit_cost times the quantity, and decremented that row and the total by the
drawn quantity. -/
lemma allocForAircraft_some_spec {rand : Nat → Nat} {st : AllocState}
    {r : AllocResult} {st1 : AllocState}
    (h : allocForAircraft rand st = some (some r, st1)) :
    ∃ prow, st.parts[r.idx]? = some prow ∧ 0 < prow.quantity_on_hand ∧
      1 ≤ r.qty ∧ r.qty ≤ min 3 prow.quantity_on_hand ∧
      r.part_id = prow.part_id ∧ r.cost = prow.unit_cost * (r.qty : ℚ) ∧
      st1.parts = st.parts.set r.idx
        { prow with quantity_on_hand := prow.quantity_on_hand - r.qty } ∧
      st1.total_available = st.total_available - r.qty ∧
      st1.rng_calls = st.rng_calls + 1 := by
  unfold allocForAircraft at h
  split at h
  · exact probeLoop_some_spec rand _ _ _ _ h
  · injection h with h
    injection h with h1 h2
    cases h1

/-- PartEvolves is reflexive. -/
lemma partEvolves_refl (p : PartRow) : PartEvolves p p :=
  ⟨rfl, rfl, le_refl _, Or.inl rfl⟩

/-- PartEvolves is transitive. -/
lemma partEvolves_trans {p q r : PartRow} (h1 : PartEvolves p q)
    (h2 : PartEvolves q r) : PartEvolves p r := by
  obtain ⟨hid1, hc1, hle1, hd1⟩ := h1
  obtain ⟨hid2, hc2, hle2, hd2⟩ := h2
  refine ⟨hid2.trans hid1, hc2.trans hc1, hle2.trans hle1, ?_⟩
  rcases hd2 with he2 | hn2
  · rcases hd1 with he1 | hn1
    · exact Or.inl (he2.trans he1)
    · exact Or.inr (he2 ▸ hn1)
  · exact Or.inr hn2

/-- One allocation step keeps the working copy's length. -/
lemma allocForAircraft_parts_length {rand : Nat → Nat} {st : AllocState}
    {res : Option AllocResult} {st1 : AllocState}
    (h : allocForAircraft rand st = some (res, st1)) :
    st1.parts.length = st.parts.length := by
  cases res with
  | none =>
    rw [(allocForAircraft_none_spec h).1]
  | some r =>
    obtain ⟨prow, _, _, _, _, _, _, hset, _, _⟩ := allocForAircraft_some_spec h
    rw [hset, List.length_set]

/-- One allocation step evolves every row of the working copy: identity and
price are kept, the stock never grows, and a changed stock is nonnegative. -/
lemma allocForAircraft_evolves {rand : Nat → Nat} {st : AllocState}
    {res : Option AllocResult} {st1 : AllocState}
    (h : allocForAircraft rand st = some (res, st1)) :
    ∀ (j : Nat) (p : PartRow), st.parts[j]? = some p →
      ∃ q, st1.parts[j]? = some q ∧ PartEvolves p q := by
  intro j p hj
  cases res with
  | none =>
    refine ⟨p, ?_, partEvolves_refl p⟩
    rw [(allocForAircraft_none_spec h).1]
    exact hj
  | some r =>
    obtain ⟨prow, hlook, hpos, hq1, hq2, _, _, hset, _, _⟩ :=
      allocForAircraft_some_spec h
    by_cases hji : j = r.idx
    · subst hji
      have hp : p = prow := by
        rw [hj] at hlook
        injection hlook
      subst hp
      have hlt : r.idx < st.parts.length :=
        (List.getElem?_eq_some_iff.mp hj).1
      refine ⟨{ p with quantity_on_hand := p.quantity_on_hand - r.qty }, ?_, ?_⟩
      · rw [hset]
        exact List.getElem?_set_self hlt
      · refine ⟨rfl, rfl, ?_, Or.inr ?_⟩
        · show p.quantity_on_hand - r.qty ≤ p.quantity_on_hand
          omega
        · show (0 : Int) ≤ p.quantity_on_hand - r.qty
          have hmin : r.qty ≤ p.quantity_on_hand :=
            le_trans hq2 (min_le_right _ _)
          omega
    · refine ⟨p, ?_, partEvolves_refl p⟩
      have hne : r.idx ≠ j := fun he => hji he.symm
      rw [hset, List.getElem?_set_ne hne]
      exact hj

/-- The emission loop always produces a result: no draw it makes can raise. -/
lemma emitRows_ne_none (rand : Nat → Nat) (clock : Nat → Int) (asn : Assignment) :
    ∀ (fleet : List Aircraft) (k : Nat) (st : AllocState),
      emitRows rand clock asn k st fleet ≠ none := by
  intro fleet
  induction fleet with
  | nil =>
    intro k st h
    cases h
  | cons a rest ih =>
    intro k st h
    unfold emitRows at h
    split at h
    · rename_i halloc
      exact absurd halloc (allocForAircraft_ne_none rand st)
    · rename_i res st1 halloc
      split at h
      · rename_i hrec
        exact ih (k + 1) st1 hrec
      · cases h

/-- Across the whole emission loop every row of the working copy evolves:
identity and price are kept and the stock never grows; a changed stock is
nonnegative. -/
lemma emitRows_evolves (rand : Nat → Nat) (clock : Nat → Int) (asn : Assignment) :
    ∀ (fleet : List Aircraft) (k : Nat) (st : AllocState)
      (rows : List TaskRow) (stF : AllocState),
      emitRows rand clock asn k st fleet = some (rows, stF) →
      ∀ (j : Nat) (p : PartRow), st.parts[j]? = some p →
        ∃ q, stF.parts[j]? = some q ∧ PartEvolves p q := by
  intro fleet
  induction fleet with
  | nil =>
    intro k st rows stF h j p hj
    injection h with h
    injection h with h1 h2
    rw [← h2]
    exact ⟨p, hj, partEvolves_refl p⟩
  | cons a rest ih =>
    intro k st rows stF h j p hj
    unfold emitRows at h
    split at h
    · rename_i halloc
      exact absurd halloc (allocForAircraft_ne_none rand st)
    · rename_i res st1 halloc
      split at h
      · rename_i hrec
        exact absurd hrec (emitRows_ne_none rand clock asn rest (k + 1) st1)
      · rename_i rows1 st2 hrec
        injection h with h
        injection h with h1 h2
        obtain ⟨q1, hq1, hev1⟩ := allocForAircraft_evolves halloc j p hj
        obtain ⟨q2, hq2, hev2⟩ := ih (k + 1) st1 rows1 st2 hrec j q1 hq1
        rw [← h2]
        exact ⟨q2, hq2, partEvolves_trans hev1 hev2⟩

/-- The emission loop keeps the working copy's length. -/
lemma emitRows_parts_length (rand : Nat → Nat) (clock : Nat → Int)
    (asn : Assignment) :
    ∀ (fleet : List Aircraft) (k : Nat) (st : AllocState)
      (rows : List TaskRow) (stF : AllocState),
      emitRows rand clock asn k st fleet = some (rows, stF) →
      stF.parts.length = st.parts.length := by
  intro fleet
  induction fleet with
  | nil =>
    intro k st rows stF h
    injection h with h
    injection h with h1 h2
    rw [← h2]
  | cons a rest ih =>
    intro k st rows stF h
    unfold emitRows at h
    split at h
    · rename_i halloc
      exact absurd halloc (allocForAircraft_ne_none rand st)
    · rename_i res st1 halloc
      split at h
      · rename_i hrec
        exact absurd hrec (emitRows_ne_none rand clock asn rest (k + 1) st1)
      · rename_i rows1 st2 hrec
        injection h with h
        injection h with h1 h2
        rw [← h2]
        rw [ih (k + 1) st1 rows1 st2 hrec]
        exact allocForAircraft_parts_length halloc

/-- Every emitted row was built by buildRow for some aircraft of the fleet
from the allocation outcome of one allocation step. -/
lemma emitRows_rows_mem (rand : Nat → Nat) (clock : Nat → Int) (asn : Assignment) :
    ∀ (fleet : List Aircraft) (k : Nat) (st : AllocState)
      (rows : List TaskRow) (stF : AllocState),
      emitRows rand clock asn k st fleet = some (rows, stF) →
      ∀ row ∈ rows, ∃ (j : Nat) (a : Aircraft) (st1 st2 : AllocState)
        (res : Option AllocResult),
        a ∈ fleet ∧ allocForAircraft rand st1 = some (res, st2) ∧
        row = buildRow clock j a asn res := by
  intro fleet
  induction fleet with
  | nil =>
    intro k st rows stF h row hrow
    injection h with h
    injection h with h1 h2
    rw [← h1] at hrow
    cases hrow
  | cons a rest ih =>
    intro k st rows stF h row hrow
    unfold emitRows at h
    split at h
    · rename_i halloc
      exact absurd halloc (allocForAircraft_ne_none rand st)
    · rename_i res st1 halloc
      split at h
      · rename_i hrec
        exact absurd hrec (emitRows_ne_none rand clock asn rest (k + 1) st1)
      · rename_i rows1 st2 hrec
        injection h with h
        injection h with h1 h2
        rw [← h1] at hrow
        rcases List.mem_cons.mp hrow with heq | hmem
        · exact ⟨k, a, st, st1, res, List.mem_cons_self a rest, halloc, heq⟩
        · obtain ⟨j, a2, su, sv, res2, hmem2, halloc2, hrow2⟩ :=
            ih (k + 1) st1 rows1 st2 hrec row hmem
          exact ⟨j, a2, su, sv, res2, List.mem_cons_of_mem a hmem2, halloc2, hrow2⟩

/-- Once the model is built, generate_schedule is the solver dispatch of
lines 101-103 followed by allocation and emission. -/
lemma generate_schedule_eq (cfg : Config) (solver : CpModelDesc → Option Assignment)
    (rand : Nat → Nat) (clock : Nat → Int) (fleet : List Aircraft)
    (parts : List PartRow) (m : CpModelDesc)
    (hb : builtModel cfg fleet = some m) :
    generate_schedule cfg solver rand clock fleet parts =
      match solver m with
      | none => .error .infeasibleScheduleError
      | some asn =>
        match emitRows rand clock asn 0 (initState parts) fleet with
        | none => .error .valueError
        | some (rows, _) => .ok rows := by
  unfold generate_schedule
  rw [hb]

/-- A run that returns a schedule went through a built model, a solver
answer and a completed emission loop producing exactly those rows. -/
lemma generate_schedule_ok_elim {cfg : Config}
    {solver : CpModelDesc → Option Assignment} {rand : Nat → Nat}
    {clock : Nat → Int} {fleet : List Aircraft} {parts : List PartRow}
    {rows : List TaskRow}
    (hrun : generate_schedule cfg solver rand clock fleet parts = .ok rows) :
    ∃ m asn stF, builtModel cfg fleet = some m ∧ solver m = some asn ∧
      emitRows rand clock asn 0 (initState parts) fleet = some (rows, stF) := by
  unfold generate_schedule at hrun
  split at hrun
  · exact Except.noConfusion hrun
  · rename_i m hb
    split at hrun
    · exact Except.noConfusion hrun
    · rename_i asn hs
      split at hrun
      · exact Except.noConfusion hrun
      · rename_i rows0 stF he
        have hr : rows0 = rows := Except.ok.inj hrun
        subst hr
        exact ⟨m, asn, stF, hb, hs, he⟩

/-- C4: once the weight computation succeeds, the run fails with the
infeasibility error exactly when the solver finds no feasible assignment of
the built model, and whenever the solver finds one the run returns the
schedule emitted from that assignment instead of raising. -/
theorem C4_solver_outcome (cfg : Config)
    (solver : CpModelDesc → Option Assignment) (rand : Nat → Nat)
    (clock : Nat → Int) (fleet : List Aircraft) (parts : List PartRow)
    (ws : List (Nat × Int)) (hw : computeWeights fleet = some ws) :
    (generate_schedule cfg solver rand clock fleet parts =
        .error .infeasibleScheduleError ↔ solver ⟨cfg, fleet, ws⟩ = none) ∧
    ∀ asn, solver ⟨cfg, fleet, ws⟩ = some asn →
      ∃ rows stF,
        emitRows rand clock asn 0 (initState parts) fleet = some (rows, stF) ∧
        generate_schedule cfg solver rand clock fleet parts = .ok rows := by
  have hb : builtModel cfg fleet = some ⟨cfg, fleet, ws⟩ := by
    unfold builtModel
    rw [hw]
    rfl
  have hgs := generate_schedule_eq cfg solver rand clock fleet parts _ hb
  constructor
  · constructor
    · intro h
      cases hs : solver ⟨cfg, fleet, ws⟩ with
      | none => rfl
      | some asn =>
        exfalso
        rw [hgs, hs] at h
        have h2 : (match emitRows rand clock asn 0 (initState parts) fleet with
            | none => (Except.error RunError.valueError : Except RunError (List TaskRow))
            | some (rows, _) => Except.ok rows) =
            Except.error RunError.infeasibleScheduleError := h
        cases he : emitRows rand clock asn 0 (initState parts) fleet with
        | none => exact absurd he (emitRows_ne_none rand clock asn fleet 0 _)
        | some pr =>
          obtain ⟨rows, stF⟩ := pr
          rw [he] at h2
          exact Except.noConfusion h2
    · intro hs
      rw [hgs, hs]
  · intro asn hasn
    cases he : emitRows rand clock asn 0 (initState parts) fleet with
    | none => exact absurd he (emitRows_ne_none rand clock asn fleet 0 _)
    | some pr =>
      obtain ⟨rows, stF⟩ := pr
      refine ⟨rows, stF, rfl, ?_⟩
      rw [hgs, hasn]
      show (match emitRows rand clock asn 0 (initState parts) fleet with
          | none => (Except.error RunError.valueError : Except RunError (List TaskRow))
          | some (rows, _) => Except.ok rows) = Except.ok rows
      rw [he]

theorem C4_solver_outcome_witness :
    generate_schedule cfgW (oracleOf asnW) rand0 clock0 fleetW partsW =
        .error .infeasibleScheduleError ↔
      oracleOf asnW ⟨cfgW, fleetW, [(1, 1)]⟩ = none :=
  (C4_solver_outcome cfgW (oracleOf asnW) rand0 clock0 fleetW partsW [(1, 1)]
    (by with_unfolding_all rfl)).1

/-- C5 counterexample: with max_duration_days = 3 above the 2-day horizon
(the configuration the spec calls infeasible by construction and scenario D
says must raise ConfigError before solving), generate_schedule performs no
validation: for a one-aircraft fleet the model is still satisfiable, a sound
solver finds the assignment, and the run returns a schedule instead of
failing with ConfigError. -/
theorem C5_configError_counterexample :
    ((cfgBad.horizon_days : Int) < cfgBad.max_duration_days ∧
      cfgBad.min_duration_days ≤ cfgBad.max_duration_days) ∧
    SatisfiesModel cfgBad fleetW asnBad ∧
    generate_schedule cfgBad (oracleOf asnBad) rand0 clock0 fleetW [] =
      .ok [rowBad] := by
  exact ⟨by decide, by decide, by with_unfolding_all rfl⟩

/-- C5 amended: generate_schedule performs no configuration validation at
all and can never fail with ConfigError; with duration bounds exceeding the
horizon it proceeds to build and solve the model (returning a schedule
whenever the solver still finds a feasible assignment). -/
theorem C5_no_configError (cfg : Config)
    (solver : CpModelDesc → Option Assignment) (rand : Nat → Nat)
    (clock : Nat → Int) (fleet : List Aircraft) (parts : List PartRow) :
    generate_schedule cfg solver rand clock fleet parts ≠
      .error .configError := by
  unfold generate_schedule
  split
  · intro h
    exact RunError.noConfusion (Except.error.inj h)
  · split
    · intro h
      exact RunError.noConfusion (Except.error.inj h)
    · split
      · intro h
        exact RunError.noConfusion (Except.error.inj h)
      · intro h
        exact Except.noConfusion h

/-- C6: throughout the allocation-and-emission loop, starting from a working
copy with nonnegative stock, every stock stays nonnegative after the run
(and hence after every allocation step, since the statement holds from any
intermediate state), every stock is nonincreasing, and the quantity consumed
from a row — its initial minus its final stock — is at most its initial
stock. -/
theorem C6_stock_invariant (rand : Nat → Nat) (clock : Nat → Int)
    (asn : Assignment) (fleet : List Aircraft) (k : Nat) (st : AllocState)
    (rows : List TaskRow) (stF : AllocState)
    (hrun : emitRows rand clock asn k st fleet = some (rows, stF))
    (hnn : ∀ p ∈ st.parts, 0 ≤ p.quantity_on_hand) :
    (∀ p ∈ stF.parts, 0 ≤ p.quantity_on_hand) ∧
    ∀ (j : Nat) (p pF : PartRow), st.parts[j]? = some p →
      stF.parts[j]? = some pF →
      0 ≤ pF.quantity_on_hand ∧ pF.quantity_on_hand ≤ p.quantity_on_hand ∧
      p.quantity_on_hand - pF.quantity_on_hand ≤ p.quantity_on_hand := by
  have hlen := emitRows_parts_length rand clock asn fleet k st rows stF hrun
  have hev := emitRows_evolves rand clock asn fleet k st rows stF hrun
  have key : ∀ (j : Nat) (p pF : PartRow), st.parts[j]? = some p →
      stF.parts[j]? = some pF →
      0 ≤ pF.quantity_on_hand ∧ pF.quantity_on_hand ≤ p.quantity_on_hand ∧
      p.quantity_on_hand - pF.quantity_on_hand ≤ p.quantity_on_hand := by
    intro j p pF hp hpF
    obtain ⟨q, hqF, hev1⟩ := hev j p hp
    have hqpF : q = pF := by
      rw [hpF] at hqF
      injection hqF with hx
      exact hx.symm
    subst hqpF
    obtain ⟨_, _, hle, hd⟩ := hev1
    have h0 : 0 ≤ q.quantity_on_hand := by
      rcases hd with he | hn
      · rw [he]
        exact hnn p (List.getElem?_mem hp)
      · exact hn
    exact ⟨h0, hle, by omega⟩
  refine ⟨?_, key⟩
  intro pF hmem
  obtain ⟨j, hj⟩ := List.mem_iff_getElem?.mp hmem
  have hjlt : j < stF.parts.length := (List.getElem?_eq_some_iff.mp hj).1
  have hjlt2 : j < st.parts.length := by
    rw [hlen] at hjlt
    exact hjlt
  obtain ⟨p, hp⟩ : ∃ p, st.parts[j]? = some p := by
    cases hq : st.parts[j]? with
    | none =>
      have := List.getElem?_eq_none_iff.mp hq
      omega
    | some p => exact ⟨p, rfl⟩
  exact (key j p pF hp hj).1

theorem C6_stock_invariant_witness :
    0 ≤ (⟨7, 5, 3⟩ : PartRow).quantity_on_hand ∧
    (⟨7, 5, 3⟩ : PartRow).quantity_on_hand ≤
      (⟨7, 5, 4⟩ : PartRow).quantity_on_hand ∧
    (⟨7, 5, 4⟩ : PartRow).quantity_on_hand -
        (⟨7, 5, 3⟩ : PartRow).quantity_on_hand ≤
      (⟨7, 5, 4⟩ : PartRow).quantity_on_hand :=
  (C6_stock_invariant rand0 clock0 asnW fleetW 0 (initState partsW) [rowW]
    ⟨[⟨7, 5, 3⟩], 0, 3, 1⟩ (by with_unfolding_all rfl)
    (by with_unfolding_all decide)).2 0 ⟨7, 5, 4⟩ ⟨7, 5, 3⟩
    (by with_unfolding_all rfl) (by with_unfolding_all rfl)

/-- C7: every emitted task either was left unresourced with a null part, a
zero quantity and a zero cost (and no error raised), or carries a part
allocated from a positive-stock row of the working copy, with a quantity in
[1, min(3, stock at allocation time)], a cost of unit_cost times the
quantity, and with exactly that row's stock decremented by the quantity. -/
theorem C7_task_resourcing (cfg : Config)
    (solver : CpModelDesc → Option Assignment) (rand : Nat → Nat)
    (clock : Nat → Int) (fleet : List Aircraft) (parts : List PartRow)
    (rows : List TaskRow)
    (hrun : generate_schedule cfg solver rand clock fleet parts = .ok rows) :
    ∀ row ∈ rows,
      (row.part_id = none ∧ row.part_quantity = 0 ∧ row.cost = 0) ∨
      ∃ (r : AllocResult) (st1 st2 : AllocState) (prow : PartRow),
        allocForAircraft rand st1 = some (some r, st2) ∧
        st1.parts[r.idx]? = some prow ∧ 0 < prow.quantity_on_hand ∧
        1 ≤ r.qty ∧ r.qty ≤ min 3 prow.quantity_on_hand ∧
        row.part_id = some prow.part_id ∧ row.part_quantity = r.qty ∧
        row.cost = prow.unit_cost * (r.qty : ℚ) ∧
        st2.parts = st1.parts.set r.idx
          { prow with quantity_on_hand := prow.quantity_on_hand - r.qty } ∧
        st2.total_available = st1.total_available - r.qty := by
  intro row hrow
  obtain ⟨m, asn, stF, hb, hs, he⟩ := generate_schedule_ok_elim hrun
  obtain ⟨j, a, st1, st2, res, hmem, halloc, hbuild⟩ :=
    emitRows_rows_mem rand clock asn fleet 0 (initState parts) rows stF he
      row hrow
  cases res with
  | none =>
    left
    rw [hbuild]
    exact ⟨rfl, rfl, rfl⟩
  | some r =>
    right
    obtain ⟨prow, hlook, hpos, hq1, hq2, hpid, hcost, hset, htot, _⟩ :=
      allocForAircraft_some_spec halloc
    refine ⟨r, st1, st2, prow, halloc, hlook, hpos, hq1, hq2, ?_, ?_, ?_,
      hset, htot⟩
    · rw [hbuild]
      show some r.part_id = some prow.part_id
      rw [hpid]
    · rw [hbuild]
      rfl
    · rw [hbuild]
      show r.cost = prow.unit_cost * (r.qty : ℚ)
      exact hcost

theorem C7_task_resourcing_witness :
    (rowW.part_id = none ∧ rowW.part_quantity = 0 ∧ rowW.cost = 0) ∨
    ∃ (r : AllocResult) (st1 st2 : AllocState) (prow : PartRow),
      allocForAircraft rand0 st1 = some (some r, st2) ∧
      st1.parts[r.idx]? = some prow ∧ 0 < prow.quantity_on_hand ∧
      1 ≤ r.qty ∧ r.qty ≤ min 3 prow.quantity_on_hand ∧
      rowW.part_id = some prow.part_id ∧ rowW.part_quantity = r.qty ∧
      rowW.cost = prow.unit_cost * (r.qty : ℚ) ∧
      st2.parts = st1.parts.set r.idx
        { prow with quantity_on_hand := prow.quantity_on_hand - r.qty } ∧
      st2.total_available = st1.total_available - r.qty :=
  C7_task_resourcing cfgW (oracleOf asnW) rand0 clock0 fleetW partsW [rowW]
    (by with_unfolding_all rfl) rowW (List.mem_singleton_self rowW)

/-- C10: the run can never fail with the ValueError of an empty randint
range — a quantity is only drawn from a part probed with positive stock, so
the range [1, min(3, avail)] is nonempty — and every allocated part_quantity
of a returned schedule lies between 1 and 3 inclusive. -/
theorem C10_draw_safety (cfg : Config)
    (solver : CpModelDesc → Option Assignment) (rand : Nat → Nat)
    (clock : Nat → Int) (fleet : List Aircraft) (parts : List PartRow) :
    generate_schedule cfg solver rand clock fleet parts ≠
      .error .valueError ∧
    ∀ rows, generate_schedule cfg solver rand clock fleet parts = .ok rows →
      ∀ row ∈ rows, row.part_id ≠ none →
        1 ≤ row.part_quantity ∧ row.part_quantity ≤ 3 := by
  constructor
  · unfold generate_schedule
    split
    · intro h
      exact RunError.noConfusion (Except.error.inj h)
    · split
      · intro h
        exact RunError.noConfusion (Except.error.inj h)
      · rename_i m hb asn hs
        split
        · rename_i he
          exact absurd he (emitRows_ne_none rand clock asn fleet 0 _)
        · intro h
          exact Except.noConfusion h
  · intro rows hrun row hrow hpid
    obtain ⟨m, asn, stF, hb, hs, he⟩ := generate_schedule_ok_elim hrun
    obtain ⟨j, a, st1, st2, res, hmem, halloc, hbuild⟩ :=
      emitRows_rows_mem rand clock asn fleet 0 (initState parts) rows stF he
        row hrow
    cases res with
    | none =>
      exfalso
      apply hpid
      rw [hbuild]
      rfl
    | some r =>
      obtain ⟨prow, hlook, hpos, hq1, hq2, _, _, _, _, _⟩ :=
        allocForAircraft_some_spec halloc
      have hq3 : r.qty ≤ 3 := le_trans hq2 (min_le_left _ _)
      constructor
      · rw [hbuild]
        exact hq1
      · rw [hbuild]
        exact hq3

theorem C10_draw_safety_witness :
    generate_schedule cfgW (oracleOf asnW) rand0 clock0 fleetW partsW ≠
      .error .valueError ∧
    (1 ≤ rowW.part_quantity ∧ rowW.part_quantity ≤ 3) :=
  ⟨(C10_draw_safety cfgW (oracleOf asnW) rand0 clock0 fleetW partsW).1,
   (C10_draw_safety cfgW (oracleOf asnW) rand0 clock0 fleetW partsW).2 [rowW]
     (by with_unfolding_all rfl) rowW (List.mem_singleton_self rowW)
     (by decide)⟩

/-- C8 counterexample: the emitter re-reads the normalized wall clock for
each date field, so there is no single anchor date.  With clockMid — a
nondecreasing clock whose first reading normalizes to day 0 and every later
one to day 1, i.e. a run that crosses midnight after the first now() call —
the emitted task has schedule_end − schedule_start = 2 days although its
solved duration is 1 day, contradicting the claimed shared anchor and the
claimed equality schedule_end − schedule_start = duration. -/
theorem C8_anchor_counterexample :
    generate_schedule cfgW (oracleOf asnW) rand0 clockMid fleetW [] =
      .ok [rowMid] ∧
    rowMid.schedule_end - rowMid.schedule_start ≠ asnW.dur 1 := by
  exact ⟨by with_unfolding_all rfl, by decide⟩

/-- C8 amended: each date field is anchored at its own now() call; whenever
every now() reading made during emission normalizes to the same day (the
run does not cross midnight), every emitted task has schedule_start =
anchor + start_day, schedule_end = anchor + start_day + duration — hence
schedule_end − schedule_start = duration — and status = "SCHEDULED". -/
theorem C8_anchor_amended (cfg : Config)
    (solver : CpModelDesc → Option Assignment) (rand : Nat → Nat)
    (clock : Nat → Int) (fleet : List Aircraft) (parts : List PartRow)
    (rows : List TaskRow) (asn : Assignment) (anchor : Int)
    (hclock : ∀ k, clock k = anchor)
    (hrun : generate_schedule cfg solver rand clock fleet parts = .ok rows)
    (hasn : solvedAssignment cfg solver fleet = some asn) :
    ∀ row ∈ rows, ∃ a, a ∈ fleet ∧
      row.aircraft_id = a.aircraft_id ∧
      row.schedule_start = anchor + asn.start a.aircraft_id ∧
      row.schedule_end =
        anchor + asn.start a.aircraft_id + asn.dur a.aircraft_id ∧
      row.schedule_end - row.schedule_start = asn.dur a.aircraft_id ∧
      row.status = "SCHEDULED" := by
  intro row hrow
  obtain ⟨m, asn0, stF, hb, hs, he⟩ := generate_schedule_ok_elim hrun
  have hasn0 : asn0 = asn := by
    unfold solvedAssignment at hasn
    rw [hb] at hasn
    rw [show (some m).bind solver = solver m from rfl, hs] at hasn
    injection hasn
  subst hasn0
  obtain ⟨j, a, st1, st2, res, hmem, halloc, hbuild⟩ :=
    emitRows_rows_mem rand clock asn0 fleet 0 (initState parts) rows stF he
      row hrow
  refine ⟨a, hmem, ?_, ?_, ?_, ?_, ?_⟩
  · rw [hbuild]
    rfl
  · rw [hbuild]
    show clock (2 * j) + asn0.start a.aircraft_id =
      anchor + asn0.start a.aircraft_id
    rw [hclock]
  · rw [hbuild]
    show clock (2 * j + 1) + asn0.start a.aircraft_id + asn0.dur a.aircraft_id =
      anchor + asn0.start a.aircraft_id + asn0.dur a.aircraft_id
    rw [hclock]
  · rw [hbuild]
    show (clock (2 * j + 1) + asn0.start a.aircraft_id + asn0.dur a.aircraft_id) -
        (clock (2 * j) + asn0.start a.aircraft_id) = asn0.dur a.aircraft_id
    rw [hclock, hclock]
    ring
  · rw [hbuild]
    rfl

theorem C8_anchor_amended_witness :
    ∃ a, a ∈ fleetW ∧
      rowW0.aircraft_id = a.aircraft_id ∧
      rowW0.schedule_start = 0 + asnW.start a.aircraft_id ∧
      rowW0.schedule_end =
        0 + asnW.start a.aircraft_id + asnW.dur a.aircraft_id ∧
      rowW0.schedule_end - rowW0.schedule_start = asnW.dur a.aircraft_id ∧
      rowW0.status = "SCHEDULED" :=
  C8_anchor_amended cfgW (oracleOf asnW) rand0 clock0 fleetW [] [rowW0] asnW 0
    (fun _ => rfl) (by with_unfolding_all rfl) (by with_unfolding_all rfl)
    rowW0 (List.mem_singleton_self rowW0)
